import Mathlib

/-!
Verification of the `WebScraper` class in `webscrapper.py`.

The scraper is embedded shallowly:

* URLs are handled in parsed-component form (`UrlParts`), mirroring the
  `scheme`/`netloc`/`path` triple that `urllib.parse.urlparse` produces and
  that `urljoin` manipulates; `urljoin` below follows the Python 3
  `urllib.parse.urljoin` algorithm for schemes in `uses_relative`/`uses_netloc`
  (such as http/https), restricted to the scheme, netloc and path components.
* A parsed document (`BeautifulSoup` object) is an opaque traversable tree;
  it is embedded as `Doc`, which records the query results the scraper
  consumes: the flat element list (`find_all`/`find` by tag and attribute),
  the href values of `<a href=...>` anchors, the `<img>` elements, and the
  tables as row lists of cell texts (`get_text(strip=True)` results).
* The network is an oracle value `NetOutcome`: either a
  `requests.exceptions.RequestException` (connection error, timeout, and the
  `HTTPError` that `raise_for_status` raises is folded in via the status
  code) or a response carrying an HTTP status and a parsed body.
* Python dicts are association lists in insertion order (`pyDict`,
  `pyDictInsert`, `pyLookup` reproduce dict construction, item assignment and
  lookup); `list(set(...))` is `pySetList` (the order CPython produces is
  hash-dependent and unspecified, so it is modelled as deduplication).
-/

/-- The `(scheme, netloc, path)` components of a URL as produced by
`urllib.parse.urlparse`, restricted to the three components the scraper
compares and joins (params/query/fragment are not modelled). A relative
href is a `UrlParts` with empty `scheme` (and usually empty `netloc`). -/
structure UrlParts where
  scheme : String
  netloc : String
  path : String
deriving DecidableEq, Repr

/-- The empty URL: what `urlparse` returns for the empty string. -/
def UrlParts.empty : UrlParts := ⟨"", "", ""⟩

/-- `segments[1:-1] = filter(None, segments[1:-1])` on the tail of a list:
keeps the last element, drops empty strings strictly before it. -/
def filterMidTail : List String → List String
  | [] => []
  | [y] => [y]
  | y :: rest => if y = "" then filterMidTail rest else y :: filterMidTail rest

/-- `segments[1:-1] = filter(None, segments[1:-1])`: keeps the first and last
elements and removes empty strings from the middle. -/
def filterMiddle : List String → List String
  | [] => []
  | [x] => [x]
  | x :: rest => x :: filterMidTail rest

/-- The `for seg in segments` loop of `urljoin`: `..` pops the resolved list
(ignoring underflow, like the `except IndexError: pass`), `.` is skipped,
anything else is appended. -/
def resolveSegments (segments : List String) : List String :=
  segments.foldl
    (fun resolved seg =>
      if seg = ".." then resolved.dropLast
      else if seg = "." then resolved
      else resolved ++ [seg])
    []

/-- `'/'.join(resolved_path) or '/'`. -/
def joinResolved (resolved : List String) : String :=
  let j := String.intercalate "/" resolved
  if j = "" then "/" else j

/-- `urllib.parse.urljoin(base, url)` on parsed components, following the
CPython implementation for a scheme in `uses_relative` and `uses_netloc`
(the http/https case the scraper exercises): an empty base or url returns
the other; a url whose explicit scheme differs from the base's is returned
unchanged; a url with a netloc keeps its own netloc and path; otherwise the
base's netloc is used and the paths are merged with `.`/`..` resolution. -/
def urljoin (base url : UrlParts) : UrlParts :=
  if base = UrlParts.empty then url
  else if url = UrlParts.empty then base
  else
    let scheme := if url.scheme = "" then base.scheme else url.scheme
    if scheme ≠ base.scheme then url
    else if url.netloc ≠ "" then ⟨scheme, url.netloc, url.path⟩
    else
      let netloc := base.netloc
      if url.path = "" then ⟨scheme, netloc, base.path⟩
      else
        let baseParts := base.path.splitOn "/"
        let baseParts := if baseParts.getLastD "" ≠ "" then baseParts.dropLast else baseParts
        let segments :=
          if url.path.startsWith "/" then url.path.splitOn "/"
          else filterMiddle (baseParts ++ url.path.splitOn "/")
        let resolved := resolveSegments segments
        let resolved :=
          if segments.getLastD "" = "." ∨ segments.getLastD "" = ".." then resolved ++ [""]
          else resolved
        ⟨scheme, netloc, joinResolved resolved⟩

/-- An element of the parsed document tree, as the scraper observes it:
its tag name, its attribute list, and its `get_text(strip=True)` text. -/
structure Element where
  tag : String
  attrs : List (String × String)
  text : String
deriving DecidableEq, Repr

/-- `elem.get(name)`: the value of attribute `name`, if present. -/
def Element.get (e : Element) (name : String) : Option String :=
  (e.attrs.find? (fun p => decide (p.1 = name))).map (·.2)

/-- An `<img>` element as consumed by `extract_images`: its `src` attribute
(`none` models a missing or empty `src`, both skipped by `if img_url:`) and
its optional `alt` attribute. -/
structure Img where
  src : Option UrlParts
  alt : Option String
deriving DecidableEq, Repr

/-- A parsed document (`BeautifulSoup` object), embedded as the query results
the scraper consumes from the opaque tree:
`elements` is the flat element sequence in document order (serving `find` and
`find_all` by tag/attribute), `anchors` the href values of the
`<a href=...>` elements (`find_all('a', href=True)`), `imgs` the `<img>`
elements, and `tables` the tables, each a list of `<tr>` rows, each row the
`get_text(strip=True)` texts of its `td`/`th` cells. -/
structure Doc where
  elements : List Element
  anchors : List UrlParts
  imgs : List Img
  tables : List (List (List String))
deriving DecidableEq, Repr

/-- `soup.find(tag)`: first element with the given tag. -/
def Doc.findTag (d : Doc) (tag : String) : Option Element :=
  d.elements.find? (fun e => decide (e.tag = tag))

/-- `soup.find('meta', attrs={'name': n})`: first `meta` element whose
`name` attribute equals `n`. -/
def Doc.findMetaNamed (d : Doc) (n : String) : Option Element :=
  d.elements.find? (fun e => decide (e.tag = "meta" ∧ e.get "name" = some n))

/-- The network's answer to one `session.get(url, timeout=10)` call:
either a `requests.exceptions.RequestException` (connection failure,
timeout, ...) with its message, or an HTTP response with status code and
parsed body (`BeautifulSoup(response.content, 'html.parser')` is the
black-box parser; it never raises, so the body appears already parsed). -/
inductive NetOutcome where
  | err (reason : String)
  | ok (status : Nat) (body : Doc)
deriving DecidableEq, Repr

/-- `response.raise_for_status()` raises `HTTPError` exactly for
4xx and 5xx status codes. -/
def raisesForStatus (status : Nat) : Bool :=
  decide (400 ≤ status ∧ status < 600)

/-- `WebScraper.fetch_page`: returns the parsed document on success, and
`None` when the request raised a `RequestException` — either directly from
`session.get` or from `raise_for_status` on a 4xx/5xx response (the
`except requests.exceptions.RequestException` arm). The `time.sleep` and
`print` side effects carry no data and are not modelled. -/
def fetchPage (outcome : NetOutcome) : Option Doc :=
  match outcome with
  | .err _ => none
  | .ok status body => if raisesForStatus status then none else some body

/-- `list(set(links))`: deduplication; CPython's iteration order over a set
is hash-dependent and unspecified, so it is modelled as `List.dedup`. -/
def pySetList {α : Type} [DecidableEq α] (l : List α) : List α :=
  l.dedup

/-- `WebScraper.extract_links(soup, filter_internal)`: `[]` for no document;
otherwise each anchor's href is resolved against the base URL with `urljoin`,
kept (when `filter_internal`) only if its netloc equals the base URL's
netloc (`urlparse(url).netloc == urlparse(self.base_url).netloc`), and the
collected list is deduplicated. -/
def extractLinks (baseUrl : UrlParts) (soup : Option Doc) (filterInternal : Bool) :
    List UrlParts :=
  match soup with
  | none => []
  | some d =>
    let links := d.anchors.foldl
      (fun links href =>
        let url := urljoin baseUrl href
        if filterInternal then
          if url.netloc = baseUrl.netloc then links ++ [url] else links
        else links ++ [url])
      []
    pySetList links

/-- `WebScraper.extract_text(soup, tag)`: `[]` for no document; otherwise the
stripped texts of the elements matching `tag`, dropping empty texts. -/
def extractText (soup : Option Doc) (tag : String) : List String :=
  match soup with
  | none => []
  | some d =>
    ((d.elements.filter (fun e => decide (e.tag = tag))).map (fun e => e.text)).filter
      (fun t => decide (t ≠ ""))

/-- One record produced by `extract_images`:
`{'url': full_url, 'alt': img.get('alt', 'No alt text')}`. -/
structure ImageRecord where
  url : UrlParts
  alt : String
deriving DecidableEq, Repr

/-- `WebScraper.extract_images(soup)`: `[]` for no document; otherwise one
record per `<img>` whose `src` is present and non-empty, with the src
resolved against the base URL and the alt defaulting to `'No alt text'`. -/
def extractImages (baseUrl : UrlParts) (soup : Option Doc) : List ImageRecord :=
  match soup with
  | none => []
  | some d =>
    d.imgs.foldl
      (fun images img =>
        match img.src with
        | none => images
        | some s => images ++ [⟨urljoin baseUrl s, img.alt.getD "No alt text"⟩])
      []

/-- `WebScraper.extract_metadata(soup)`: `{}` for no document; otherwise the
dict built by assigning `title`, `description` and `keywords` in that order,
each falling back to its placeholder when the element or its `content`
attribute is missing. -/
def extractMetadata (soup : Option Doc) : List (String × String) :=
  match soup with
  | none => []
  | some d =>
    let titleVal :=
      match d.findTag "title" with
      | some t => t.text
      | none => "No title"
    let descVal :=
      match d.findMetaNamed "description" with
      | some e => (e.get "content").getD "No description"
      | none => "No description"
    let kwVal :=
      match d.findMetaNamed "keywords" with
      | some e => (e.get "content").getD "No keywords"
      | none => "No keywords"
    [("title", titleVal), ("description", descVal), ("keywords", kwVal)]

/-- Python dict item assignment `m[k] = v` on an insertion-ordered
association list: an existing key keeps its position and gets the new
value, a new key is appended at the end. -/
def pyDictInsert (m : List (String × String)) (kv : String × String) :
    List (String × String) :=
  if m.any (fun p => decide (p.1 = kv.1)) then
    m.map (fun p => if p.1 = kv.1 then (p.1, kv.2) else p)
  else m ++ [kv]

/-- `dict(pairs)`: successive item assignment starting from the empty dict
(first occurrence of a key fixes its position, the last one its value). -/
def pyDict (pairs : List (String × String)) : List (String × String) :=
  pairs.foldl pyDictInsert []

/-- `m.get(k)` / `m[k]` on the association-list dict model. -/
def pyLookup (m : List (String × String)) (k : String) : Option String :=
  (m.find? (fun p => decide (p.1 = k))).map (·.2)

/-- One row record of `scrape_table`: `dict(zip(headers, cells))` when the
table has a header row, `{'data': cells}` otherwise. -/
inductive TableRecord where
  | mapped (entries : List (String × String))
  | data (cells : List String)
deriving DecidableEq, Repr

/-- The body of `scrape_table`'s row loop, for one data row's cell texts:
`dict(zip(headers, cells))` if `headers` is non-empty, else
`{'data': cells}`. -/
def rowRecord (headers cells : List String) : TableRecord :=
  if headers = [] then .data cells
  else .mapped (pyDict (headers.zip cells))

/-- The table-processing core of `WebScraper.scrape_table`, applied to one
table given as its `<tr>` rows (each row the stripped texts of its `td`/`th`
cells): the first row (`table.find('tr')`) supplies the headers, every later
row (`table.find_all('tr')[1:]`) with a non-empty cell list contributes one
record (`if cells:`). -/
def scrapeTableRows (table : List (List String)) : List TableRecord :=
  let headers := match table with | [] => [] | r :: _ => r
  (table.drop 1).foldl
    (fun rows cells =>
      if cells ≠ [] then rows ++ [rowRecord headers cells] else rows)
    []

/-- `WebScraper.scrape_table(url, table_index)`: fetches the page (`[]` when
the fetch fails), returns `[]` when there is no table at the requested index
(`if not tables or table_index >= len(tables)`), and otherwise processes the
selected table. -/
def scrapeTable (outcome : NetOutcome) (tableIndex : Nat) : List TableRecord :=
  match fetchPage outcome with
  | none => []
  | some d =>
    let tables := d.tables
    if tables = [] ∨ tables.length ≤ tableIndex then []
    else scrapeTableRows (tables.getD tableIndex [])

/-- The observable outcome of `WebScraper.save_to_csv`: nothing written for
empty input (`print("No data to save"); return`), a complete file of
comma-separated lines, or a partially written file when `csv.DictWriter`
raised mid-write (caught by the `except` arm, which reports the error).
Each line is kept as its list of fields (the comma/quote serialization is
the csv module's concern). -/
inductive CsvOutcome where
  | noWrite
  | written (lines : List (List String))
  | errorPartial (lines : List (List String))
deriving DecidableEq, Repr

/-- One `DictWriter` data row: the record's value for each field name in
order, with the default `restval=''` for a missing key. -/
def csvRow (fieldnames : List String) (rec : List (String × String)) : List String :=
  fieldnames.map (fun k => (pyLookup rec k).getD "")

/-- `DictWriter.writerows`: writes one row per record in order, but raises
`ValueError` at the first record holding a key outside `fieldnames`
(the default `extrasaction='raise'`), leaving the earlier rows written.
Returns the rows that reached the file and whether it raised. -/
def writeRows (fieldnames : List String) :
    List (List (String × String)) → List (List String) × Bool
  | [] => ([], false)
  | rec :: rest =>
    if rec.all (fun p => decide (p.1 ∈ fieldnames)) then
      let out := writeRows fieldnames rest
      (csvRow fieldnames rec :: out.1, out.2)
    else ([], true)

/-- `WebScraper.save_to_csv(data)`: reports and writes nothing for empty
data; otherwise writes the header row taken from the first record's keys
(`fieldnames=data[0].keys()`) followed by the `DictWriter` rows, the whole
write degrading to a reported error with a partial file if `writerows`
raises. -/
def saveToCsv (data : List (List (String × String))) : CsvOutcome :=
  match data with
  | [] => .noWrite
  | first :: _ =>
    let fieldnames := first.map Prod.fst
    let out := writeRows fieldnames data
    if out.2 then .errorPartial (fieldnames :: out.1)
    else .written (fieldnames :: out.1)

/-- `WebScraper.scrape_multiple_pages(urls, extract_func)`: for each URL in
order, fetch it (`network` gives each URL's network outcome); on failure the
URL is skipped, on success the extracted record gets its `'url'` key set to
the source URL and is appended. -/
def scrapeMultiplePages (network : String → NetOutcome) (urls : List String)
    (extractFunc : Doc → List (String × String)) : List (List (String × String)) :=
  urls.foldl
    (fun allData url =>
      match fetchPage (network url) with
      | none => allData
      | some soup => allData ++ [pyDictInsert (extractFunc soup) ("url", url)])
    []

/-! ### Helper lemmas -/

/-- A left fold that conditionally appends one element per input is the
mapped filter of the input, prefixed by the accumulator. -/
theorem foldl_ite_append {α β : Type} (p : α → Prop) [DecidablePred p] (g : α → β)
    (l : List α) (acc : List β) :
    l.foldl (fun r x => if p x then r ++ [g x] else r) acc
      = acc ++ (l.filter (fun x => decide (p x))).map g := by
  induction l generalizing acc with
  | nil => simp
  | cons x xs ih =>
    by_cases h : p x <;> simp [h, ih, List.filter_cons, List.append_assoc]

/-- A left fold that appends one image of each input element maps the input
onto the end of the accumulator. -/
theorem foldl_append_map {α β : Type} (g : α → β) (l : List α) (acc : List β) :
    l.foldl (fun r x => r ++ [g x]) acc = acc ++ l.map g := by
  induction l generalizing acc with
  | nil => simp
  | cons x xs ih => simp [ih, List.append_assoc]

/-- `pyDictInsert` never produces an empty dict. -/
theorem pyDictInsert_ne_nil (m : List (String × String)) (kv : String × String) :
    pyDictInsert m kv ≠ [] := by
  unfold pyDictInsert
  by_cases h : m.any (fun p => decide (p.1 = kv.1))
  · rcases m with _ | ⟨p, ps⟩
    · simp at h
    · simp [h]
  · simp [h]

/-- Folding `pyDictInsert` over a non-empty list (or from a non-empty
accumulator) yields a non-empty dict. -/
theorem foldl_pyDictInsert_ne_nil (l : List (String × String))
    (acc : List (String × String)) (h : acc ≠ [] ∨ l ≠ []) :
    l.foldl pyDictInsert acc ≠ [] := by
  induction l generalizing acc with
  | nil => simpa using h.resolve_right (by simp)
  | cons x xs ih =>
    exact ih (pyDictInsert acc x) (Or.inl (pyDictInsert_ne_nil acc x))

/-- `dict(pairs)` of a non-empty pair list is non-empty. -/
theorem pyDict_ne_nil (l : List (String × String)) (h : l ≠ []) : pyDict l ≠ [] :=
  foldl_pyDictInsert_ne_nil l [] (Or.inr h)

/-- Looking up `k` right after the assignment `m[k] = v` yields `v`. -/
theorem pyLookup_pyDictInsert (m : List (String × String)) (k v : String) :
    pyLookup (pyDictInsert m (k, v)) k = some v := by
  unfold pyDictInsert pyLookup
  by_cases h : m.any (fun p => decide (p.1 = k))
  · simp only [if_pos h]
    induction m with
    | nil => simp at h
    | cons p ps ih =>
      by_cases hp : p.1 = k
      · simp [hp]
      · simp only [List.any_cons, hp, decide_eq_true_eq, Bool.false_or] at h
        simpa [hp] using ih h
  · simp only [if_neg h]
    induction m with
    | nil => simp
    | cons p ps ih =>
      simp only [List.any_cons, Bool.or_eq_true, decide_eq_true_eq, not_or] at h
      simpa [List.find?_cons, h.1] using ih (by simpa using h.2)

/-- Folding `pyDictInsert` over pairs with fresh, pairwise distinct keys just
appends them to the accumulator. -/
theorem foldl_pyDictInsert_of_nodup (l : List (String × String)) :
    ∀ acc : List (String × String), ((acc ++ l).map Prod.fst).Nodup →
      l.foldl pyDictInsert acc = acc ++ l := by
  induction l with
  | nil => intro acc _; simp
  | cons kv rest ih =>
    intro acc h
    have h' := h
    rw [List.map_append] at h'
    have hd := (List.nodup_append.mp h').2.2
    have hk : kv.1 ∉ acc.map Prod.fst := fun hm => (hd hm) (by simp)
    have hany : acc.any (fun p => decide (p.1 = kv.1)) = false := by
      simp only [List.any_eq_false, decide_eq_false_iff_not]
      intro p hp hpk
      exact hk (List.mem_map.mpr ⟨p, hp, of_decide_eq_true hpk⟩)
    have hins : pyDictInsert acc kv = acc ++ [kv] := by
      simp [pyDictInsert, hany]
    rw [List.foldl_cons, hins, ih (acc ++ [kv]) (by simpa using h)]
    simp

/-- `dict(zip(...))` with pairwise distinct keys keeps every pair in order:
`dict(pairs)` is `pairs` itself. -/
theorem pyDict_of_nodup_keys (l : List (String × String))
    (h : (l.map Prod.fst).Nodup) : pyDict l = l := by
  simpa using foldl_pyDictInsert_of_nodup l [] (by simpa using h)

/-- The row-processing core on a table with header row `header`: one record
per non-empty data row, in order. -/
theorem scrapeTableRows_cons (header : List String) (dataRows : List (List String)) :
    scrapeTableRows (header :: dataRows)
      = (dataRows.filter (fun r => decide (r ≠ []))).map (rowRecord header) := by
  show dataRows.foldl
      (fun rows cells => if cells ≠ [] then rows ++ [rowRecord header cells] else rows) []
      = _
  simpa using foldl_ite_append (fun cells => cells ≠ []) (rowRecord header) dataRows []

/-- A record built from a non-empty data row is never an empty mapping nor an
empty `data` record. -/
theorem rowRecord_ne_empty (headers cells : List String) (h : cells ≠ []) :
    rowRecord headers cells ≠ TableRecord.mapped [] ∧
      rowRecord headers cells ≠ TableRecord.data [] := by
  unfold rowRecord
  by_cases hh : headers = []
  · simp only [hh, if_pos rfl]
    exact ⟨by simp, by simpa using h⟩
  · simp only [if_neg hh]
    refine ⟨?_, by simp⟩
    rcases headers with _ | ⟨k, ks⟩
    · exact absurd rfl hh
    rcases cells with _ | ⟨c, cs⟩
    · exact absurd rfl h
    intro heq
    have hz : pyDict ((k :: ks).zip (c :: cs)) = [] := by injection heq
    exact pyDict_ne_nil ((k :: ks).zip (c :: cs)) (by simp) hz

/-- `DictWriter.writerows` on records whose keys all lie in `fieldnames`:
no error, one row per record. -/
theorem writeRows_of_keys_sub (fieldnames : List String)
    (recs : List (List (String × String)))
    (h : ∀ rec ∈ recs, ∀ p ∈ rec, p.1 ∈ fieldnames) :
    writeRows fieldnames recs = (recs.map (csvRow fieldnames), false) := by
  induction recs with
  | nil => rfl
  | cons rec rest ih =>
    have hall : rec.all (fun p => decide (p.1 ∈ fieldnames)) = true := by
      simp only [List.all_eq_true, decide_eq_true_eq]
      exact h rec (by simp)
    rw [writeRows, if_pos hall, ih (fun r hr => h r (by simp [hr]))]
    simp

/-- The orchestrator's loop: one record per URL whose fetch succeeded, in
input order, the record being the extracted data with its `'url'` key set. -/
theorem scrapeMultiplePages_eq (network : String → NetOutcome) (urls : List String)
    (extractFunc : Doc → List (String × String)) :
    scrapeMultiplePages network urls extractFunc
      = urls.filterMap (fun url =>
          (fetchPage (network url)).map
            (fun soup => pyDictInsert (extractFunc soup) ("url", url))) := by
  unfold scrapeMultiplePages
  suffices h : ∀ (us : List String) (acc : List (List (String × String))),
      us.foldl
        (fun allData url =>
          match fetchPage (network url) with
          | none => allData
          | some soup => allData ++ [pyDictInsert (extractFunc soup) ("url", url)])
        acc
      = acc ++ us.filterMap (fun url =>
          (fetchPage (network url)).map
            (fun soup => pyDictInsert (extractFunc soup) ("url", url))) by
    simpa using h urls []
  intro us
  induction us with
  | nil => intro acc; simp
  | cons u rest ih =>
    intro acc
    cases hf : fetchPage (network u) <;>
      simp [List.filterMap_cons, hf, ih, List.append_assoc]

/-- The link-extraction loop: resolve every anchor href against the base URL,
filter to matching netlocs when `filterInternal` is set. -/
theorem extractLinks_some (baseUrl : UrlParts) (d : Doc) (filterInternal : Bool) :
    extractLinks baseUrl (some d) filterInternal
      = pySetList (if filterInternal then
          ((d.anchors.map (urljoin baseUrl)).filter
            (fun u => decide (u.netloc = baseUrl.netloc)))
        else d.anchors.map (urljoin baseUrl)) := by
  unfold extractLinks
  cases filterInternal
  · refine congrArg pySetList ?_
    simpa using foldl_append_map (urljoin baseUrl) d.anchors []
  · refine congrArg pySetList ?_
    rw [List.filter_map]
    simpa using foldl_ite_append
      (fun href => (urljoin baseUrl href).netloc = baseUrl.netloc)
      (urljoin baseUrl) d.anchors []

/-- Resolving a relative href (empty scheme) against an absolute base URL
yields a URL with the base's scheme and a non-empty netloc. -/
theorem urljoin_of_relative (B H : UrlParts) (hbs : B.scheme ≠ "")
    (hbn : B.netloc ≠ "") (hH : H.scheme = "") :
    (urljoin B H).scheme = B.scheme ∧ (urljoin B H).netloc ≠ "" := by
  have hBne : B ≠ UrlParts.empty := fun h => hbs (congrArg UrlParts.scheme h)
  unfold urljoin
  rw [if_neg hBne]
  by_cases hHe : H = UrlParts.empty
  · rw [if_pos hHe]; exact ⟨rfl, hbn⟩
  · rw [if_neg hHe]
    simp only [if_pos hH]
    rw [if_neg (by simp)]
    by_cases hn : H.netloc ≠ ""
    · rw [if_pos hn]; exact ⟨rfl, hn⟩
    · rw [if_neg hn]
      by_cases hp : H.path = ""
      · rw [if_pos hp]; exact ⟨rfl, hbn⟩
      · rw [if_neg hp]; exact ⟨rfl, hbn⟩

/-- `urljoin` leaves an already-absolute URL of the base's scheme
unchanged. -/
theorem urljoin_absolute (B u : UrlParts) (hs : u.scheme = B.scheme)
    (hbs : B.scheme ≠ "") (hn : u.netloc ≠ "") : urljoin B u = u := by
  have hBne : B ≠ UrlParts.empty := fun h => hbs (congrArg UrlParts.scheme h)
  have hune : u ≠ UrlParts.empty := fun h => hn (congrArg UrlParts.netloc h)
  have husch : u.scheme ≠ "" := hs ▸ hbs
  unfold urljoin
  rw [if_neg hBne, if_neg hune]
  simp only [if_neg husch]
  rw [if_neg (by simp [hs]), if_pos hn]

/-- The keys of `zip headers cells` form a sublist of `headers`. -/
theorem map_fst_zip_sublist {α β : Type} :
    ∀ (l1 : List α) (l2 : List β), ((l1.zip l2).map Prod.fst).Sublist l1
  | [], _ => by simp
  | _ :: _, [] => by simp
  | a :: l1, b :: l2 => by simpa using (map_fst_zip_sublist l1 l2).cons₂ a

/-! ### Claims -/

/-- C9: for every absolute base URL `B` (non-empty scheme and netloc) and
every relative href `H` (empty scheme), the URL resolution used by the link
and image extractors is idempotent: resolving the already-absolute result
against `B` again yields the same URL. -/
theorem urljoin_idempotent (B H : UrlParts) (hbs : B.scheme ≠ "")
    (hbn : B.netloc ≠ "") (hH : H.scheme = "") :
    urljoin B (urljoin B H) = urljoin B H :=
  urljoin_absolute B (urljoin B H) (urljoin_of_relative B H hbs hbn hH).1 hbs
    (urljoin_of_relative B H hbs hbn hH).2

/-- Witness for C9 at a concrete absolute base and relative href. -/
theorem urljoin_idempotent_witness :
    urljoin ⟨"http", "example.com", "/a/b"⟩
        (urljoin ⟨"http", "example.com", "/a/b"⟩ ⟨"", "", "c/../d"⟩)
      = urljoin ⟨"http", "example.com", "/a/b"⟩ ⟨"", "", "c/../d"⟩ :=
  urljoin_idempotent ⟨"http", "example.com", "/a/b"⟩ ⟨"", "", "c/../d"⟩
    (by decide) (by decide) rfl

/-- C2: `fetch_page` never lets a fetch error escape: a network-layer or
timeout error (`RequestException`) yields `None`, an HTTP-status error
(4xx/5xx, raised by `raise_for_status`) yields `None`, and on success the
parsed document tree is returned. In the embedding `fetchPage` is a total
function of the network outcome, so no exception can pass its boundary. -/
theorem fetchPage_never_raises (o : NetOutcome) :
    (∀ reason, o = NetOutcome.err reason → fetchPage o = none) ∧
    (∀ status body, o = NetOutcome.ok status body →
      (raisesForStatus status = true → fetchPage o = none) ∧
      (raisesForStatus status = false → fetchPage o = some body)) := by
  constructor
  · rintro reason rfl; rfl
  · rintro status body rfl
    exact ⟨fun h => by simp [fetchPage, h], fun h => by simp [fetchPage, h]⟩

/-- Witness for C2: a timeout, a 404 response and a 200 response. -/
theorem fetchPage_never_raises_witness :
    fetchPage (NetOutcome.err "connection timed out") = none
    ∧ fetchPage (NetOutcome.ok 404 ⟨[], [], [], []⟩) = none
    ∧ fetchPage (NetOutcome.ok 200 ⟨[], [], [], []⟩) = some ⟨[], [], [], []⟩ :=
  ⟨(fetchPage_never_raises (NetOutcome.err "connection timed out")).1
      "connection timed out" rfl,
   ((fetchPage_never_raises (NetOutcome.ok 404 ⟨[], [], [], []⟩)).2
      404 ⟨[], [], [], []⟩ rfl).1 (by decide),
   ((fetchPage_never_raises (NetOutcome.ok 200 ⟨[], [], [], []⟩)).2
      200 ⟨[], [], [], []⟩ rfl).2 (by decide)⟩

/-- C3: on the absent document (`None`), every extractor of the family —
`extract_links`, `extract_text`, `extract_images`, `extract_metadata` —
returns its empty/defaulted result; as total Lean functions none of them
can raise. -/
theorem extractors_absence_tolerant (baseUrl : UrlParts) (filterInternal : Bool)
    (tag : String) :
    extractLinks baseUrl none filterInternal = []
    ∧ extractText none tag = []
    ∧ extractImages baseUrl none = []
    ∧ extractMetadata none = [] :=
  ⟨rfl, rfl, rfl, rfl⟩

/-- C7: for every document (or its absence) and either filtering mode, the
list `extract_links` returns contains no duplicate URL. -/
theorem extractLinks_nodup (baseUrl : UrlParts) (soup : Option Doc)
    (filterInternal : Bool) : (extractLinks baseUrl soup filterInternal).Nodup := by
  cases soup with
  | none => simp [extractLinks]
  | some d => rw [extractLinks_some]; exact List.nodup_dedup _

/-- Reading back the `'url'` field of each aggregated record recovers
exactly the successfully fetched URLs, in order. -/
theorem map_lookup_url_filterMap (network : String → NetOutcome)
    (extractFunc : Doc → List (String × String)) (urls : List String) :
    ((urls.filterMap (fun url =>
        (fetchPage (network url)).map
          (fun soup => pyDictInsert (extractFunc soup) ("url", url)))).map
      (fun rec => pyLookup rec "url"))
      = (urls.filter (fun url => (fetchPage (network url)).isSome)).map some := by
  induction urls with
  | nil => rfl
  | cons u us ih =>
    cases hf : fetchPage (network u) with
    | none => simpa [List.filterMap_cons, List.filter_cons, hf] using ih
    | some soup =>
      simpa [List.filterMap_cons, List.filter_cons, hf, pyLookup_pyDictInsert] using ih

/-- C1: `scrape_multiple_pages` produces one record per URL whose fetch
succeeded, in input order with failed URLs skipped, each record's `'url'`
field equal to the URL it was fetched from; in the `[u1, u2, u3]` scenario
where only `u2` fails, the result is exactly the records tagged `u1` and
`u3` in that order. -/
theorem scrapeMultiplePages_per_url (network : String → NetOutcome)
    (urls : List String) (extractFunc : Doc → List (String × String)) :
    ((scrapeMultiplePages network urls extractFunc).map
        (fun rec => pyLookup rec "url")
      = (urls.filter (fun url => (fetchPage (network url)).isSome)).map some)
    ∧ ((scrapeMultiplePages
          (fun url => if url = "u2" then NetOutcome.err "connection refused"
                      else NetOutcome.ok 200 ⟨[], [], [], []⟩)
          ["u1", "u2", "u3"] (fun _ => [])).map (fun rec => pyLookup rec "url")
      = [some "u1", some "u3"]) := by
  refine ⟨?_, by decide⟩
  rw [scrapeMultiplePages_eq]
  exact map_lookup_url_filterMap network extractFunc urls

/-- C4 fails as stated on the absent document: `extract_metadata(None)`
returns the empty dict `{}`, which does not have the three keys. -/
theorem extractMetadata_absent_counterexample :
    (extractMetadata none).map Prod.fst ≠ ["title", "description", "keywords"] := by
  decide

/-- C4 (amended): for every present document, `extract_metadata` returns a
mapping with exactly the keys `title`, `description`, `keywords` in that
order, each bound to a string, and each bound to its placeholder string when
the corresponding source element is missing; on the absent document it
returns the empty dict instead. -/
theorem extractMetadata_total_keys (d : Doc) :
    ((extractMetadata (some d)).map Prod.fst = ["title", "description", "keywords"])
    ∧ (d.findTag "title" = none →
        pyLookup (extractMetadata (some d)) "title" = some "No title")
    ∧ (d.findMetaNamed "description" = none →
        pyLookup (extractMetadata (some d)) "description" = some "No description")
    ∧ (d.findMetaNamed "keywords" = none →
        pyLookup (extractMetadata (some d)) "keywords" = some "No keywords") := by
  refine ⟨by simp [extractMetadata], ?_, ?_, ?_⟩
  · intro h; simp [extractMetadata, h, pyLookup, List.find?]
  · intro h; simp [extractMetadata, h, pyLookup, List.find?]
  · intro h; simp [extractMetadata, h, pyLookup, List.find?]

/-- Witness for C4 (amended) on the document with no title and no meta
elements. -/
theorem extractMetadata_total_keys_witness :
    ((extractMetadata (some ⟨[], [], [], []⟩)).map Prod.fst
        = ["title", "description", "keywords"])
    ∧ pyLookup (extractMetadata (some ⟨[], [], [], []⟩)) "title" = some "No title"
    ∧ pyLookup (extractMetadata (some ⟨[], [], [], []⟩)) "description"
        = some "No description"
    ∧ pyLookup (extractMetadata (some ⟨[], [], [], []⟩)) "keywords"
        = some "No keywords" :=
  ⟨(extractMetadata_total_keys ⟨[], [], [], []⟩).1,
   (extractMetadata_total_keys ⟨[], [], [], []⟩).2.1 rfl,
   (extractMetadata_total_keys ⟨[], [], [], []⟩).2.2.1 rfl,
   (extractMetadata_total_keys ⟨[], [], [], []⟩).2.2.2 rfl⟩

/-- C5: for a table whose first row is taken as the header (non-empty, with
distinct header texts), `scrape_table` pairs each data row's cells with the
header cells positionally up to the shorter of the two lengths
(`dict(zip(headers, cells))`), silently dropping excess header keys or
excess row cells for that row. -/
theorem scrapeTable_header_pairing (headers : List String)
    (dataRows : List (List String)) (hnd : headers.Nodup) (hne : headers ≠ []) :
    scrapeTableRows (headers :: dataRows)
      = (dataRows.filter (fun r => decide (r ≠ []))).map
          (fun cells => TableRecord.mapped (headers.zip cells)) := by
  rw [scrapeTableRows_cons]
  refine List.map_congr_left ?_
  intro cells _
  unfold rowRecord
  rw [if_neg hne]
  congr 1
  exact pyDict_of_nodup_keys _ ((map_fst_zip_sublist headers cells).nodup hnd)

/-- Witness for C5: header `[h1, h2]` with data rows `[[a, b], [c]]` yields
`[{h1: a, h2: b}, {h1: c}]`. -/
theorem scrapeTable_header_pairing_witness :
    scrapeTableRows [["h1", "h2"], ["a", "b"], ["c"]]
      = [TableRecord.mapped [("h1", "a"), ("h2", "b")],
         TableRecord.mapped [("h1", "c")]] :=
  Eq.trans
    (scrapeTable_header_pairing ["h1", "h2"] [["a", "b"], ["c"]]
      (by decide) (by decide))
    (by decide)

/-- C6: with `filter_internal=true`, `extract_links` returns only URLs whose
netloc equals the base URL's netloc, and every URL it returns with
`filter_internal=true` is also returned with `filter_internal=false`. -/
theorem extractLinks_internal_filter (baseUrl : UrlParts) (d : Doc) (u : UrlParts) :
    (u ∈ extractLinks baseUrl (some d) true → u.netloc = baseUrl.netloc)
    ∧ (u ∈ extractLinks baseUrl (some d) true →
        u ∈ extractLinks baseUrl (some d) false) := by
  rw [extractLinks_some, extractLinks_some]
  simp only [if_pos rfl, pySetList]
  constructor
  · intro hu
    exact of_decide_eq_true (List.mem_filter.mp (List.mem_dedup.mp hu)).2
  · intro hu
    simp only [Bool.false_eq_true, if_false]
    exact List.mem_dedup.mpr (List.mem_filter.mp (List.mem_dedup.mp hu)).1

/-- Witness for C6: a protocol-relative anchor pointing at the base host. -/
theorem extractLinks_internal_filter_witness :
    (⟨"http", "example.com", "/x"⟩ : UrlParts).netloc
        = UrlParts.netloc ⟨"http", "example.com", "/a/"⟩
    ∧ (⟨"http", "example.com", "/x"⟩ : UrlParts)
        ∈ extractLinks ⟨"http", "example.com", "/a/"⟩
            (some ⟨[], [⟨"", "example.com", "/x"⟩], [], []⟩) false :=
  ⟨(extractLinks_internal_filter ⟨"http", "example.com", "/a/"⟩
      ⟨[], [⟨"", "example.com", "/x"⟩], [], []⟩
      ⟨"http", "example.com", "/x"⟩).1 (by decide),
   (extractLinks_internal_filter ⟨"http", "example.com", "/a/"⟩
      ⟨[], [⟨"", "example.com", "/x"⟩], [], []⟩
      ⟨"http", "example.com", "/x"⟩).2 (by decide)⟩

/-- C8 fails as stated on records with differing key sets: given
`[{a: 1}, {a: x, b: y}]`, `csv.DictWriter` raises `ValueError` on the second
record's extra key `b`, so instead of header `a` plus one row per record the
file holds only the header and the first row, and the error is reported. -/
theorem saveToCsv_ragged_counterexample :
    saveToCsv [[("a", "1")], [("a", "x"), ("b", "y")]]
        = CsvOutcome.errorPartial [["a"], ["1"]]
    ∧ saveToCsv [[("a", "1")], [("a", "x"), ("b", "y")]]
        ≠ CsvOutcome.written [["a"], ["1"], ["x"]] := by
  decide

/-- C8 (amended): `save_to_csv` on an empty record list performs no file
write and reports the empty-input condition; on a non-empty list whose
records' keys all appear among the first record's keys, it writes the header
row derived from the first record's keys and one row per record, so
`save_to_csv([{a: 1, b: 2}])` produces header `a, b` and data row `1, 2`; a
record with a key outside the header aborts the write partway instead. -/
theorem saveToCsv_header_and_rows (first : List (String × String))
    (rest : List (List (String × String)))
    (h : ∀ rec ∈ first :: rest, ∀ p ∈ rec, p.1 ∈ first.map Prod.fst) :
    saveToCsv [] = CsvOutcome.noWrite
    ∧ saveToCsv (first :: rest)
        = CsvOutcome.written ((first.map Prod.fst)
            :: (first :: rest).map (csvRow (first.map Prod.fst)))
    ∧ saveToCsv [[("a", "1"), ("b", "2")]]
        = CsvOutcome.written [["a", "b"], ["1", "2"]] := by
  refine ⟨rfl, ?_, by decide⟩
  simp only [saveToCsv]
  rw [writeRows_of_keys_sub _ _ h]
  simp

/-- Witness for C8 (amended) at the single record `{a: 1, b: 2}`. -/
theorem saveToCsv_header_and_rows_witness :
    saveToCsv [] = CsvOutcome.noWrite
    ∧ saveToCsv [[("a", "1"), ("b", "2")]]
        = CsvOutcome.written [["a", "b"], ["1", "2"]] :=
  ⟨(saveToCsv_header_and_rows [("a", "1"), ("b", "2")] [] (by decide)).1,
   (saveToCsv_header_and_rows [("a", "1"), ("b", "2")] [] (by decide)).2.2⟩

/-- C10: a successfully fetched table's data row with zero `td`/`th` cells
contributes nothing to `scrape_table`'s result — removing the empty row from
the table leaves the result unchanged, and no record is an empty mapping or
an empty `data` record. -/
theorem scrapeTable_skips_empty_rows (d : Doc) (i : Nat) (header : List String)
    (pre post : List (List String))
    (hi : i < d.tables.length)
    (ht : d.tables.getD i [] = header :: (pre ++ [] :: post)) :
    scrapeTable (NetOutcome.ok 200 d) i = scrapeTableRows (header :: (pre ++ post))
    ∧ ∀ rec ∈ scrapeTable (NetOutcome.ok 200 d) i,
        rec ≠ TableRecord.mapped [] ∧ rec ≠ TableRecord.data [] := by
  have htn : ¬(d.tables = [] ∨ d.tables.length ≤ i) := by
    push_neg
    exact ⟨fun h0 => by rw [h0] at hi; simp at hi, hi⟩
  have hfetch : fetchPage (NetOutcome.ok 200 d) = some d := by
    simp [fetchPage, raisesForStatus]
  have hsc : scrapeTable (NetOutcome.ok 200 d) i
      = scrapeTableRows (d.tables.getD i []) := by
    simp only [scrapeTable, hfetch]
    rw [if_neg htn]
  constructor
  · rw [hsc, ht, scrapeTableRows_cons, scrapeTableRows_cons]
    simp [List.filter_append, List.filter_cons]
  · intro rec hrec
    rw [hsc, ht, scrapeTableRows_cons] at hrec
    obtain ⟨cells, hcells, hrec'⟩ := List.mem_map.mp hrec
    have hcne : cells ≠ [] := of_decide_eq_true (List.mem_filter.mp hcells).2
    rw [← hrec']
    exact rowRecord_ne_empty header cells hcne

/-- Witness for C10: a one-table page whose table has header `[h]`, an empty
data row, and the data row `[x]`. -/
theorem scrapeTable_skips_empty_rows_witness :
    scrapeTable (NetOutcome.ok 200 ⟨[], [], [], [[["h"], [], ["x"]]]⟩) 0
      = scrapeTableRows [["h"], ["x"]] := by
  have h := scrapeTable_skips_empty_rows ⟨[], [], [], [[["h"], [], ["x"]]]⟩ 0
    ["h"] [] [["x"]] (by decide) (by decide)
  simpa using h.1
